import Mathlib

/-- Python `s[:n]`: the first `n` characters of `s`. -/
def pyslice (s : String) (n : Nat) : String := String.mk (s.toList.take n)

/-- Python `s.startswith(p)`. -/
def pystartswith (s p : String) : Bool := p.toList.isPrefixOf s.toList

/-- Python `sorted` on a list of strings (lexicographic by code point). -/
def pysorted (l : List String) : List String :=
  List.insertionSort (fun a b => a ≤ b) l

/-- Python `max(xs, key=f)` guarded by a nonemptiness check: scans left to
right and keeps the current element unless a strictly greater key appears,
hence it returns the first element attaining the maximum; `none` exactly on
the empty list (where Python's `max` would raise and the source `continue`s). -/
def pymax {α β : Type} [LinearOrder β] (key : α → β) : List α → Option α
  | [] => none
  | x :: xs => some (xs.foldl (fun acc y => if key acc < key y then y else acc) x)

/-- One item of the `bnf_code` endpoint's JSON response. -/
structure CatalogItem where
  id : Option String
  name : Option String
deriving DecidableEq

/-- `check_code_exists` from `optool.py`: scan the response for an item whose
`id` equals `code`; any transport or parse failure (the bare `except:`) yields
`False`. -/
def check_code_exists (resp : Except String (List CatalogItem)) (code : String) : Bool :=
  match resp with
  | .ok data => data.any (fun item => item.id = some code)
  | .error _ => false

/-- `extract_chemical_code` from `optool.py`.  `api` maps a candidate code to
the catalog response for the existence query on that candidate.  The `for`
loop over the literal `[9, 7]` with early `return` is `List.find?`. -/
def extract_chemical_code (api : String → Except String (List CatalogItem))
    (bnf_code : String) : Except String String :=
  if bnf_code.length ≠ 15 then
    .error ("BNF code must be exactly 15 characters, got " ++ toString bnf_code.length)
  else
    match [9, 7].find? (fun n =>
        check_code_exists (api (pyslice bnf_code n)) (pyslice bnf_code n)) with
    | some n => .ok (pyslice bnf_code n)
    | none => .ok (pyslice bnf_code 9)

/-- `get_chemical_name` from `optool.py`.  `resp` is the name-lookup response
for `chemical_code`; the `for` loop returning on the first exact `id` match is
`List.find?`; `item.get('name', 'Unknown chemical')` is `Option.getD`.  The
`ValueError`s raised in the `try:` body are re-raised with the
`"Failed to parse API response: "` prefix. -/
def get_chemical_name (resp : Except String (List CatalogItem))
    (chemical_code : String) : Except String String :=
  match resp with
  | .error e => .error ("Failed to fetch data from API: " ++ e)
  | .ok [] =>
      .error ("Failed to parse API response: No data found for chemical code "
        ++ chemical_code)
  | .ok data =>
      match data.find? (fun item => item.id = some chemical_code) with
      | some item => .ok (item.name.getD "Unknown chemical")
      | none =>
          .error ("Failed to parse API response: No exact match found for chemical code "
            ++ chemical_code)

/-- One item of the `spending_by_org` endpoint's JSON response. -/
structure RawSpendingItem where
  date : Option String
  row_id : Option String
  row_name : Option String
  items : Option Int
  quantity : Option Int
  actual_cost : Option Int
deriving DecidableEq

/-- The per-record dictionary appended to `spending_by_date[date]`. -/
structure SpendingEntry where
  org_id : Option String
  org_name : Option String
  items : Int
  quantity : Int
  actual_cost : Int
deriving DecidableEq

/-- The `defaultdict(list)` built by `get_spending_data`: its key list in
insertion order, and the entry list appended under each date. -/
structure SpendingByDate where
  keys : List String
  entries : String → List SpendingEntry

/-- Append `d` to a Python dict's key list if it is not already a key. -/
def insertOnce (ks : List String) (d : String) : List String :=
  if d ∈ ks then ks else ks ++ [d]

/-- One iteration of the `for item in data` loop of `get_spending_data`:
records with no date are dropped, the rest are appended under their date with
the absent numeric fields defaulted to 0. -/
def addRecord (m : SpendingByDate) (item : RawSpendingItem) : SpendingByDate :=
  match item.date with
  | none => m
  | some d =>
    { keys := insertOnce m.keys d,
      entries := fun d' =>
        if d' = d then
          m.entries d' ++ [{ org_id := item.row_id, org_name := item.row_name,
                             items := item.items.getD 0, quantity := item.quantity.getD 0,
                             actual_cost := item.actual_cost.getD 0 }]
        else m.entries d' }

/-- `get_spending_data` from `optool.py`: a transport failure aborts the whole
call; otherwise the records are grouped by date in response order. -/
def get_spending_data (resp : Except String (List RawSpendingItem)) :
    Except String SpendingByDate :=
  match resp with
  | .error e => .error ("Failed to fetch spending data from API: " ++ e)
  | .ok data => .ok (data.foldl addRecord ⟨[], fun _ => []⟩)

/-- The entry contributed by one raw record to the group of date `d`. -/
def groupedAt (d : String) (item : RawSpendingItem) : Option SpendingEntry :=
  match item.date with
  | none => none
  | some d' =>
    if d' = d then
      some { org_id := item.row_id, org_name := item.row_name,
             items := item.items.getD 0, quantity := item.quantity.getD 0,
             actual_cost := item.actual_cost.getD 0 }
    else none

/-- The body of the per-date loop of `find_top_prescriber_by_month`: skip the
date when it has no entries (the `continue`), otherwise pair it with the
organization name of the entry `max` picks by item count. -/
def unweightedPick (s : SpendingByDate) (date : String) :
    Option (String × Option String) :=
  match pymax (fun x => x.items) (s.entries date) with
  | none => none
  | some top_icb => some (date, top_icb.org_name)

/-- `find_top_prescriber_by_month` from `optool.py`: iterate the dates in
sorted order, appending one pair per nonempty date. -/
def find_top_prescriber_by_month (s : SpendingByDate) :
    List (String × Option String) :=
  (pysorted s.keys).filterMap (unweightedPick s)

/-- The `{'org_name': ..., 'rate': ...}` dictionaries built by
`find_top_prescriber_by_month_weighted`. -/
structure RateEntry where
  org_name : Option String
  rate : ℚ
deriving DecidableEq

/-- A population mapping: `list_sizes.get(date, {}).get(org_id, 0)` reads it
with both lookups defaulted, so absence is `none`, never zero. -/
abbrev PopMap : Type := String → Option String → Option Int

/-- The `icb_rates` list built inside `find_top_prescriber_by_month_weighted`:
an entry contributes a rate only when its looked-up list size (defaulted to 0
when absent) is strictly positive. -/
def icbRates (list_sizes : PopMap) (date : String)
    (icb_data : List SpendingEntry) : List RateEntry :=
  icb_data.filterMap (fun icb =>
    let list_size := (list_sizes date icb.org_id).getD 0
    if 0 < list_size then
      some { org_name := icb.org_name, rate := (icb.items : ℚ) / (list_size : ℚ) }
    else none)

/-- The body of the per-date loop of `find_top_prescriber_by_month_weighted`:
a date is skipped both by the `continue` on empty entries and by the
`if icb_rates:` guard, i.e. exactly when `icb_rates` is empty. -/
def weightedPick (s : SpendingByDate) (list_sizes : PopMap) (date : String) :
    Option (String × Option String) :=
  match pymax (fun x => x.rate) (icbRates list_sizes date (s.entries date)) with
  | none => none
  | some top_icb => some (date, top_icb.org_name)

/-- `find_top_prescriber_by_month_weighted` from `optool.py`. -/
def find_top_prescriber_by_month_weighted (s : SpendingByDate)
    (list_sizes : PopMap) : List (String × Option String) :=
  (pysorted s.keys).filterMap (weightedPick s list_sizes)

/-- Spending mapping of the C1 example: one date with entries A:5, B:9, C:9. -/
def c1Spending : SpendingByDate :=
  { keys := ["2023-01-01"],
    entries := fun d =>
      if d = "2023-01-01" then
        [{ org_id := some "A", org_name := some "ICB A", items := 5, quantity := 0, actual_cost := 0 },
         { org_id := some "B", org_name := some "ICB B", items := 9, quantity := 0, actual_cost := 0 },
         { org_id := some "C", org_name := some "ICB C", items := 9, quantity := 0, actual_cost := 0 }]
      else [] }

/-- Spending mapping of the C2 example: one date whose only entry is org A with
100 items. -/
def c2Spending : SpendingByDate :=
  { keys := ["2023-02-01"],
    entries := fun d =>
      if d = "2023-02-01" then
        [{ org_id := some "A", org_name := some "ICB A", items := 100, quantity := 0, actual_cost := 0 }]
      else [] }

/-- Population mapping of the C2 example: org A has population 0 on that date. -/
def c2Pop : PopMap :=
  fun d o => if d = "2023-02-01" ∧ o = some "A" then some 0 else none

/-- Spending mapping for the C9 witness: two dates, one with no entries. -/
def c9Spending : SpendingByDate :=
  { keys := ["2023-03-01"],
    entries := fun d =>
      if d = "2023-03-01" then
        [{ org_id := some "A", org_name := some "ICB A", items := 2, quantity := 0, actual_cost := 0 }]
      else [] }

/-- Spending mapping for the C10 witness. -/
def c10Spending : SpendingByDate :=
  { keys := ["2023-04-01"],
    entries := fun d =>
      if d = "2023-04-01" then
        [{ org_id := some "A", org_name := some "ICB A", items := 10, quantity := 0, actual_cost := 0 }]
      else [] }

/-- Population mapping for the C10 witness: org A has population 1. -/
def c10Pop : PopMap :=
  fun d o => if d = "2023-04-01" ∧ o = some "A" then some 1 else none

/-- One item of the `org_details` endpoint's JSON response. -/
structure OrgDetail where
  row_id : Option String
  total_list_size : Option Int
deriving DecidableEq

/-- Observable outcome of `get_icb_list_sizes`: the nested
`{date: {org_id: size}}` mapping, the query dates of the GET requests issued
in order, the lines printed to standard error, and the lines printed to
standard output (the function prints nothing there). -/
structure PopResult where
  sizes : PopMap
  queries : List String
  warnings : List String
  stdout_lines : List String

/-- The inner `for date in dates` loop of `get_icb_list_sizes`: store the
item's list size under every requested date the month is a prefix of,
for the item's organization. -/
def updDates (year_month : String) (o : Option String) (v : Int) :
    List String → PopMap → PopMap
  | [], m => m
  | date :: rest, m =>
    updDates year_month o v rest
      (if pystartswith date year_month then
        fun d' o' => if d' = date ∧ o' = o then some v else m d' o'
      else m)

/-- The `for item in data` loop of `get_icb_list_sizes`: only organizations
present in `org_ids` are recorded; `item.get('total_list_size', 0)` defaults
an absent size to 0. -/
def updItems (org_ids : List (Option String)) (dates : List String)
    (year_month : String) : List OrgDetail → PopMap → PopMap
  | [], m => m
  | item :: rest, m =>
    updItems org_ids dates year_month rest
      (if item.row_id ∈ org_ids then
        updDates year_month item.row_id (item.total_list_size.getD 0) dates m
      else m)

/-- One iteration of the `for year_month in unique_months` loop: issue the
query for the first day of the month; on success merge the response into the
mapping, on transport failure print a warning to standard error and skip the
month. -/
def processMonth (api : String → Except String (List OrgDetail))
    (org_ids : List (Option String)) (dates : List String)
    (acc : PopResult) (year_month : String) : PopResult :=
  match api (year_month ++ "-01") with
  | .ok data =>
      { acc with
        sizes := updItems org_ids dates year_month data acc.sizes,
        queries := acc.queries ++ [year_month ++ "-01"] }
  | .error e =>
      { acc with
        queries := acc.queries ++ [year_month ++ "-01"],
        warnings := acc.warnings ++
          ["Warning: Failed to fetch list sizes for " ++ year_month ++ ": " ++ e] }

/-- The `for year_month in unique_months` loop. -/
def processMonths (api : String → Except String (List OrgDetail))
    (org_ids : List (Option String)) (dates : List String) :
    List String → PopResult → PopResult
  | [], acc => acc
  | year_month :: rest, acc =>
    processMonths api org_ids dates rest
      (processMonth api org_ids dates acc year_month)

/-- The accumulation of the `unique_months` set of `get_icb_list_sizes`. -/
def uniqueMonthsFrom : List String → List String → List String
  | [], acc => acc
  | d :: rest, acc => uniqueMonthsFrom rest (insertOnce acc (pyslice d 7))

/-- The `unique_months` set of `get_icb_list_sizes`: the distinct `date[:7]`
prefixes.  Python's `set` has no specified iteration order; this embedding
fixes first-occurrence order (any order yields the same mapping, since
distinct months write to disjoint date sets). -/
def uniqueMonths (dates : List String) : List String :=
  uniqueMonthsFrom dates []

/-- `get_icb_list_sizes` from `optool.py`: one query per unique month, merged
into an initially empty mapping. -/
def get_icb_list_sizes (api : String → Except String (List OrgDetail))
    (org_ids : List (Option String)) (dates : List String) : PopResult :=
  processMonths api org_ids dates (uniqueMonths dates)
    { sizes := fun _ _ => none, queries := [], warnings := [], stdout_lines := [] }

/-- Last-write-wins accumulation of the value recorded for organization `o`
by one month's response items. -/
def monthValFrom (org_ids : List (Option String)) (o : Option String) :
    List OrgDetail → Option Int → Option Int
  | [], acc => acc
  | item :: rest, acc =>
    monthValFrom org_ids o rest
      (if item.row_id ∈ org_ids ∧ item.row_id = o then
        some (item.total_list_size.getD 0)
      else acc)

/-- Last-write-wins value recorded for organization `o` by one month's
response items, `none` when no item writes it. -/
def monthVal (org_ids : List (Option String)) (o : Option String)
    (data : List OrgDetail) : Option Int :=
  monthValFrom org_ids o data none

/-- The population value `get_icb_list_sizes` ends up holding for a requested
date `d` and organization `o`: determined solely by the response of the query
for `d`'s own month. -/
def targetVal (api : String → Except String (List OrgDetail))
    (org_ids : List (Option String)) (d : String) (o : Option String) : Option Int :=
  match api (pyslice d 7 ++ "-01") with
  | .error _ => none
  | .ok data => monthVal org_ids o data

/-- Population oracle for the C6 witness: only the 2023-05-01 query succeeds. -/
def c6Api : String → Except String (List OrgDetail) :=
  fun q => if q = "2023-05-01" then .ok [⟨some "A", some 42⟩] else .error "down"

/-- Population oracle for the C7 witness: the June query fails, the July one
succeeds. -/
def c7Api : String → Except String (List OrgDetail) :=
  fun q => if q = "2023-06-01" then .error "boom" else .ok [⟨some "A", some 5⟩]

/-- Claim C8: for every input string whose length is not 15, `extract_chemical_code`
fails with a validation error whose message reports the actual length of the input. -/
theorem extract_chemical_code_rejects_bad_length
    (api : String → Except String (List CatalogItem)) (s : String)
    (h : s.length ≠ 15) :
    extract_chemical_code api s =
      .error ("BNF code must be exactly 15 characters, got " ++ toString s.length) := by
  unfold extract_chemical_code
  simp [h]

/-- Concrete instance of C8: a 3-character input is rejected with its length in
the message. -/
theorem extract_chemical_code_rejects_bad_length_witness :
    extract_chemical_code (fun _ => Except.error "down") "abc" =
      .error ("BNF code must be exactly 15 characters, got " ++ toString "abc".length) :=
  extract_chemical_code_rejects_bad_length (fun _ => Except.error "down") "abc" (by decide)

/-- Claim C3: on any 15-character code, resolution returns the 9-character prefix
if the existence check succeeds on it, otherwise the 7-character prefix if the
check succeeds on it, otherwise the 9-character prefix unconditionally, and
hence never fails; and the existence check returns `true` iff the response is a
successful catalog list containing an item whose `id` is exactly the candidate
(so any transport or parse failure yields `false`). -/
theorem extract_chemical_code_prefix_resolution
    (api : String → Except String (List CatalogItem)) (bnf_code : String)
    (h : bnf_code.length = 15) :
    (check_code_exists (api (pyslice bnf_code 9)) (pyslice bnf_code 9) = true →
      extract_chemical_code api bnf_code = .ok (pyslice bnf_code 9)) ∧
    (check_code_exists (api (pyslice bnf_code 9)) (pyslice bnf_code 9) = false →
      check_code_exists (api (pyslice bnf_code 7)) (pyslice bnf_code 7) = true →
      extract_chemical_code api bnf_code = .ok (pyslice bnf_code 7)) ∧
    (check_code_exists (api (pyslice bnf_code 9)) (pyslice bnf_code 9) = false →
      check_code_exists (api (pyslice bnf_code 7)) (pyslice bnf_code 7) = false →
      extract_chemical_code api bnf_code = .ok (pyslice bnf_code 9)) ∧
    (∃ r, extract_chemical_code api bnf_code = .ok r) ∧
    (∀ resp cand, check_code_exists resp cand = true ↔
      ∃ l, resp = .ok l ∧ ∃ item ∈ l, item.id = some cand) := by
  have hlen : ¬ bnf_code.length ≠ 15 := by simp [h]
  refine ⟨?_, ?_, ?_, ?_, ?_⟩
  · intro h9
    unfold extract_chemical_code
    simp [hlen, List.find?, h9]
  · intro h9 h7
    unfold extract_chemical_code
    simp [hlen, List.find?, h9, h7]
  · intro h9 h7
    unfold extract_chemical_code
    simp [hlen, List.find?, h9, h7]
  · unfold extract_chemical_code
    simp only [hlen, if_false]
    rcases hf : [9, 7].find? (fun n =>
        check_code_exists (api (pyslice bnf_code n)) (pyslice bnf_code n)) with _ | n
    · exact ⟨pyslice bnf_code 9, rfl⟩
    · exact ⟨pyslice bnf_code n, rfl⟩
  · intro resp cand
    match resp with
    | .error e => simp [check_code_exists]
    | .ok l =>
      simp [check_code_exists, List.any_eq_true]

/-- Concrete instance of C3: with the catalog unreachable, both checks fail and
resolution still succeeds with the 9-character prefix. -/
theorem extract_chemical_code_prefix_resolution_witness :
    extract_chemical_code (fun _ => Except.error "down") "0501013B0AAABAB" =
      .ok (pyslice "0501013B0AAABAB" 9) := by
  have h := extract_chemical_code_prefix_resolution
    (fun _ => Except.error "down") "0501013B0AAABAB" (by decide)
  exact h.2.2.1 (by decide) (by decide)

/-- Claim C4: the name lookup fails exactly when the transport call fails
(wrapping the underlying error), or the response body is empty, or no returned
item's `id` equals the queried code; otherwise it returns the first matching
item's name, or the placeholder `"Unknown chemical"` when that item has no
name field. -/
theorem get_chemical_name_contract
    (resp : Except String (List CatalogItem)) (code : String) :
    (∀ e, resp = .error e →
      get_chemical_name resp code = .error ("Failed to fetch data from API: " ++ e)) ∧
    (resp = .ok [] →
      get_chemical_name resp code =
        .error ("Failed to parse API response: No data found for chemical code " ++ code)) ∧
    (∀ l, resp = .ok l → l ≠ [] → (∀ item ∈ l, item.id ≠ some code) →
      get_chemical_name resp code =
        .error ("Failed to parse API response: No exact match found for chemical code "
          ++ code)) ∧
    (∀ l item, resp = .ok l →
      l.find? (fun it => it.id = some code) = some item →
      get_chemical_name resp code = .ok (item.name.getD "Unknown chemical")) ∧
    ((∃ s, get_chemical_name resp code = .ok s) ↔
      ∃ l, resp = .ok l ∧ ∃ item ∈ l, item.id = some code) := by
  refine ⟨?_, ?_, ?_, ?_, ?_⟩
  · rintro e rfl
    rfl
  · rintro rfl
    rfl
  · rintro l rfl hne hno
    match l with
    | [] => exact absurd rfl hne
    | x :: xs =>
      have hf : (x :: xs).find? (fun it => it.id = some code) = none := by
        rw [List.find?_eq_none]
        intro it hit
        simpa using hno it hit
      simp only [get_chemical_name]
      rw [hf]
  · rintro l item rfl hfind
    match l with
    | [] => simp at hfind
    | x :: xs =>
      simp only [get_chemical_name]
      rw [hfind]
  · constructor
    · rintro ⟨s, hs⟩
      match resp with
      | .error e => simp [get_chemical_name] at hs
      | .ok [] => simp [get_chemical_name] at hs
      | .ok (x :: xs) =>
        refine ⟨x :: xs, rfl, ?_⟩
        rcases hf : (x :: xs).find? (fun it => it.id = some code) with _ | item
        · simp only [get_chemical_name] at hs
          rw [hf] at hs
          exact absurd hs (by simp)
        · have hm := List.mem_of_find?_eq_some hf
          have hp := List.find?_some hf
          exact ⟨item, hm, by simpa using hp⟩
    · rintro ⟨l, rfl, item, hmem, hid⟩
      have : ∃ it, l.find? (fun it => it.id = some code) = some it := by
        rcases hf : l.find? (fun it => it.id = some code) with _ | it
        · rw [List.find?_eq_none] at hf
          exact absurd (by simpa using hid) (hf item hmem)
        · exact ⟨it, hf⟩
      rcases this with ⟨it, hit⟩
      match l, hmem with
      | x :: xs, _ =>
        refine ⟨it.name.getD "Unknown chemical", ?_⟩
        simp only [get_chemical_name]
        rw [hit]

/-- Concrete instance of C4: an item matching on `id` but lacking a name field
resolves to the placeholder. -/
theorem get_chemical_name_contract_witness :
    get_chemical_name
      (.ok [⟨some "0501013B0", none⟩, ⟨some "0501013B0AAABAB", some "Amoxicillin"⟩])
      "0501013B0" = .ok "Unknown chemical" := by
  have h := get_chemical_name_contract
    (.ok [⟨some "0501013B0", none⟩, ⟨some "0501013B0AAABAB", some "Amoxicillin"⟩])
    "0501013B0"
  exact h.2.2.2.1 _ ⟨some "0501013B0", none⟩ rfl (by decide)

theorem foldl_addRecord_entries (data : List RawSpendingItem) (m : SpendingByDate)
    (d : String) :
    (data.foldl addRecord m).entries d = m.entries d ++ data.filterMap (groupedAt d) := by
  induction data generalizing m with
  | nil => simp
  | cons item rest ih =>
    rw [List.foldl_cons, ih]
    rcases hdt : item.date with _ | d'
    · simp [addRecord, hdt, groupedAt, List.filterMap_cons]
    · by_cases hd : d' = d
      · subst hd
        simp [addRecord, hdt, groupedAt, List.filterMap_cons]
      · simp [addRecord, hdt, groupedAt, List.filterMap_cons, hd, Ne.symm hd]

theorem mem_insertOnce (ks : List String) (d x : String) :
    x ∈ insertOnce ks d ↔ x ∈ ks ∨ x = d := by
  unfold insertOnce
  by_cases h : d ∈ ks
  · simp only [h, if_true]
    constructor
    · exact fun hx => Or.inl hx
    · rintro (hx | rfl)
      · exact hx
      · exact h
  · simp [h]

theorem foldl_addRecord_keys (data : List RawSpendingItem) (m : SpendingByDate)
    (d : String) :
    d ∈ (data.foldl addRecord m).keys ↔ d ∈ m.keys ∨ ∃ item ∈ data, item.date = some d := by
  induction data generalizing m with
  | nil => simp
  | cons item rest ih =>
    rw [List.foldl_cons, ih]
    rcases hdt : item.date with _ | d'
    · simp only [addRecord, hdt, List.mem_cons]
      constructor
      · rintro (h | ⟨it, hit, hdd⟩)
        · exact Or.inl h
        · exact Or.inr ⟨it, Or.inr hit, hdd⟩
      · rintro (h | ⟨it, hit | hit, hdd⟩)
        · exact Or.inl h
        · subst hit; rw [hdt] at hdd; exact absurd hdd (by simp)
        · exact Or.inr ⟨it, hit, hdd⟩
    · simp only [addRecord, hdt, mem_insertOnce, List.mem_cons]
      constructor
      · rintro ((h | rfl) | ⟨it, hit, hdd⟩)
        · exact Or.inl h
        · exact Or.inr ⟨item, Or.inl rfl, hdt⟩
        · exact Or.inr ⟨it, Or.inr hit, hdd⟩
      · rintro (h | ⟨it, hit | hit, hdd⟩)
        · exact Or.inl (Or.inl h)
        · subst hit; rw [hdt] at hdd
          exact Or.inl (Or.inr (by simpa using hdd.symm))
        · exact Or.inr ⟨it, hit, hdd⟩

/-- Claim C5: the spending collector wraps any transport failure in a fatal
error (no partial result); on success it groups the records by their date
field, silently dropping records that have no date, and each kept record
contributes, in response order within its date, an entry carrying the
organization id and name with items, quantity and cost defaulted to 0 when
absent; the key set is exactly the set of dates occurring in the records. -/
theorem get_spending_data_contract (resp : Except String (List RawSpendingItem)) :
    (∀ e, resp = .error e →
      get_spending_data resp = .error ("Failed to fetch spending data from API: " ++ e)) ∧
    (∀ data, resp = .ok data → ∃ s, get_spending_data resp = .ok s ∧
      (∀ d, s.entries d = data.filterMap (fun item =>
        match item.date with
        | none => none
        | some d' =>
          if d' = d then
            some { org_id := item.row_id, org_name := item.row_name,
                   items := item.items.getD 0, quantity := item.quantity.getD 0,
                   actual_cost := item.actual_cost.getD 0 }
          else none)) ∧
      (∀ d, d ∈ s.keys ↔ ∃ item ∈ data, item.date = some d)) := by
  constructor
  · rintro e rfl
    rfl
  · rintro data rfl
    refine ⟨data.foldl addRecord ⟨[], fun _ => []⟩, rfl, ?_, ?_⟩
    · intro d
      have h := foldl_addRecord_entries data ⟨[], fun _ => []⟩ d
      simpa [groupedAt] using h
    · intro d
      have h := foldl_addRecord_keys data ⟨[], fun _ => []⟩ d
      simpa using h

/-- Concrete instance of C5: two dated records around an undated one group into
two dates, with the absent numeric fields defaulted. -/
theorem get_spending_data_contract_witness :
    ∃ s, get_spending_data (.ok
      [⟨some "2023-04-01", some "Q1", some "ICB One", some 3, none, some 7⟩,
       ⟨none, some "QX", some "Dropped", some 9, some 9, some 9⟩,
       ⟨some "2023-05-01", some "Q2", some "ICB Two", none, some 4, none⟩]) = .ok s ∧
      s.entries "2023-05-01" =
        [{ org_id := some "Q2", org_name := some "ICB Two",
           items := 0, quantity := 4, actual_cost := 0 }] := by
  have h := (get_spending_data_contract (.ok
      [⟨some "2023-04-01", some "Q1", some "ICB One", some 3, none, some 7⟩,
       ⟨none, some "QX", some "Dropped", some 9, some 9, some 9⟩,
       ⟨some "2023-05-01", some "Q2", some "ICB Two", none, some 4, none⟩])).2 _ rfl
  rcases h with ⟨s, hs, hent, _⟩
  exact ⟨s, hs, by rw [hent "2023-05-01"]; decide⟩

/-- `pymax` on a nonempty list returns the first element attaining the maximal
key: some decomposition `pre ++ a :: post` where `a` is the returned element,
every element's key is at most `key a`, and everything before `a` is strictly
below it. -/
theorem pymax_spec {α β : Type} [LinearOrder β] (key : α → β) (x : α) (xs : List α) :
    ∃ a pre post, pymax key (x :: xs) = some a ∧
      x :: xs = pre ++ a :: post ∧
      (∀ y ∈ x :: xs, key y ≤ key a) ∧
      (∀ y ∈ pre, key y < key a) := by
  induction xs generalizing x with
  | nil =>
    exact ⟨x, [], [], rfl, rfl, by simp, by simp⟩
  | cons y ys ih =>
    by_cases h : key x < key y
    · obtain ⟨a, pre, post, ha, hdec, hmax, hpre⟩ := ih y
      simp only [pymax, Option.some.injEq] at ha
      refine ⟨a, x :: pre, post, ?_, ?_, ?_, ?_⟩
      · simp only [pymax, List.foldl_cons, if_pos h, Option.some.injEq]
        exact ha
      · rw [List.cons_append, ← hdec]
      · intro z hz
        rcases List.mem_cons.mp hz with rfl | hz'
        · exact le_of_lt (lt_of_lt_of_le h (hmax y (List.mem_cons_self y ys)))
        · exact hmax z hz'
      · intro z hz
        rcases List.mem_cons.mp hz with rfl | hz'
        · exact lt_of_lt_of_le h (hmax y (List.mem_cons_self y ys))
        · exact hpre z hz'
    · obtain ⟨a, pre, post, ha, hdec, hmax, hpre⟩ := ih x
      simp only [pymax, Option.some.injEq] at ha
      have hyx : key y ≤ key x := le_of_not_lt h
      match pre, hdec with
      | [], hdec =>
        have hxa : x = a := by simpa using congrArg (fun l => l.head?) hdec
        have hpost : ys = post := by simpa using congrArg (fun l => l.tail) hdec
        refine ⟨a, [], y :: post, ?_, ?_, ?_, ?_⟩
        · simp only [pymax, List.foldl_cons, if_neg h, Option.some.injEq]
          exact ha
        · rw [List.nil_append, ← hxa, ← hpost]
        · intro z hz
          rcases List.mem_cons.mp hz with rfl | hz'
          · exact le_of_eq (congrArg key hxa)
          · rcases List.mem_cons.mp hz' with rfl | hz''
            · exact le_trans hyx (le_of_eq (congrArg key hxa))
            · exact hmax z (List.mem_cons_of_mem x hz'')
        · intro z hz
          simp at hz
      | p :: pre', hdec =>
        have hpx : p = x := by simpa using (congrArg (fun l => l.head?) hdec).symm
        have hys : ys = pre' ++ a :: post := by
          simpa using congrArg (fun l => l.tail) hdec
        refine ⟨a, x :: y :: pre', post, ?_, ?_, ?_, ?_⟩
        · simp only [pymax, List.foldl_cons, if_neg h, Option.some.injEq]
          exact ha
        · rw [List.cons_append, List.cons_append, ← hys]
        · intro z hz
          rcases List.mem_cons.mp hz with rfl | hz'
          · exact hmax z (List.mem_cons_self z ys)
          · rcases List.mem_cons.mp hz' with rfl | hz''
            · exact le_trans hyx (hmax x (List.mem_cons_self x ys))
            · exact hmax z (List.mem_cons_of_mem x hz'')
        · intro z hz
          rcases List.mem_cons.mp hz with rfl | hz'
          · exact hpx ▸ hpre p (List.mem_cons_self p pre')
          · rcases List.mem_cons.mp hz' with rfl | hz''
            · exact lt_of_le_of_lt hyx (hpx ▸ hpre p (List.mem_cons_self p pre'))
            · exact hpre z (List.mem_cons_of_mem p hz'')

theorem unweightedPick_fst (s : SpendingByDate) (d : String) (p : String × Option String)
    (h : unweightedPick s d = some p) : p.1 = d := by
  unfold unweightedPick at h
  rcases hm : pymax (fun x => x.items) (s.entries d) with _ | t
  · rw [hm] at h
    exact absurd h (by simp)
  · rw [hm] at h
    have := Option.some.inj h
    rw [← this]

theorem weightedPick_fst (s : SpendingByDate) (ls : PopMap) (d : String)
    (p : String × Option String) (h : weightedPick s ls d = some p) : p.1 = d := by
  unfold weightedPick at h
  rcases hm : pymax (fun x => x.rate) (icbRates ls d (s.entries d)) with _ | t
  · rw [hm] at h
    exact absurd h (by simp)
  · rw [hm] at h
    have := Option.some.inj h
    rw [← this]

/-- The date components of a keyed `filterMap` form a sublist of the scanned
key list. -/
theorem fst_filterMap_sublist {γ : Type} (f : String → Option (String × γ))
    (l : List String) (hf : ∀ a p, f a = some p → p.1 = a) :
    ((l.filterMap f).map Prod.fst).Sublist l := by
  induction l with
  | nil => simp
  | cons a l ih =>
    rw [List.filterMap_cons]
    rcases hfa : f a with _ | p
    · exact ih.cons a
    · rw [List.map_cons, hf a p hfa]
      exact ih.cons₂ a

/-- Any pair in a keyed `filterMap` is the value the body yields at its own
date, so a date determines its paired value. -/
theorem filterMap_keyed_eq {γ : Type} (f : String → Option (String × γ))
    (l : List String) (hf : ∀ a p, f a = some p → p.1 = a)
    (p : String × γ) (hp : p ∈ l.filterMap f) : f p.1 = some p := by
  rcases List.mem_filterMap.mp hp with ⟨a, _, hfa⟩
  rw [hf a p hfa]
  exact hfa

/-- Claim C1: for every spending mapping and every date of it with at least one
entry, the unweighted ranking pairs that date with the organization name of
the first entry in iteration order whose item count equals the maximum item
count among that date's entries (all counts are at most the picked entry's,
and every earlier entry is strictly below it), and pairs it with nothing else. -/
theorem find_top_prescriber_unweighted_first_max (s : SpendingByDate) (d : String)
    (hd : d ∈ s.keys) (hne : s.entries d ≠ []) :
    ∃ e pre post, s.entries d = pre ++ e :: post ∧
      (∀ y ∈ s.entries d, y.items ≤ e.items) ∧
      (∀ y ∈ pre, y.items < e.items) ∧
      (d, e.org_name) ∈ find_top_prescriber_by_month s ∧
      (∀ p ∈ find_top_prescriber_by_month s, p.1 = d → p = (d, e.org_name)) := by
  obtain ⟨x, xs, hxx⟩ : ∃ x xs, s.entries d = x :: xs := by
    rcases hE : s.entries d with _ | ⟨x, xs⟩
    · exact absurd hE hne
    · exact ⟨x, xs, rfl⟩
  obtain ⟨a, pre, post, ha, hdec, hmax, hpre⟩ := pymax_spec (fun y => y.items) x xs
  have hfd : unweightedPick s d = some (d, a.org_name) := by
    unfold unweightedPick
    rw [hxx, ha]
  have hdmem : d ∈ pysorted s.keys := by
    unfold pysorted
    exact (List.mem_insertionSort (fun a b : String => a ≤ b)).mpr hd
  refine ⟨a, pre, post, by rw [hxx]; exact hdec, by rw [hxx]; exact hmax, hpre, ?_, ?_⟩
  · exact List.mem_filterMap.mpr ⟨d, hdmem, hfd⟩
  · intro p hp hp1
    have h2 := filterMap_keyed_eq (unweightedPick s) (pysorted s.keys)
      (fun a' p' => unweightedPick_fst s a' p') p hp
    rw [hp1, hfd] at h2
    exact (Option.some.inj h2).symm

/-- Concrete instance of C1: on entries A:5, B:9, C:9 the first maximal entry is
picked, and the computed result is exactly B (first max, stable order). -/
theorem find_top_prescriber_unweighted_first_max_witness :
    (∃ e pre post, c1Spending.entries "2023-01-01" = pre ++ e :: post ∧
      (∀ y ∈ c1Spending.entries "2023-01-01", y.items ≤ e.items) ∧
      (∀ y ∈ pre, y.items < e.items) ∧
      ("2023-01-01", e.org_name) ∈ find_top_prescriber_by_month c1Spending ∧
      (∀ p ∈ find_top_prescriber_by_month c1Spending, p.1 = "2023-01-01" →
        p = ("2023-01-01", e.org_name))) ∧
    find_top_prescriber_by_month c1Spending = [("2023-01-01", some "ICB B")] := by
  constructor
  · exact find_top_prescriber_unweighted_first_max c1Spending "2023-01-01"
      (by decide) (by decide)
  · decide

/-- Claim C2: on each date, only entries whose organization has a known,
strictly-positive population for that date contribute a rate (absent or zero
population excludes the entry entirely, it is not a rate of 0); a date whose
rate list is empty is skipped; otherwise the date is paired with the first
rate entry attaining the maximum rate, and with nothing else. -/
theorem find_top_prescriber_weighted_rate_selection (s : SpendingByDate)
    (ls : PopMap) (d : String) (hd : d ∈ s.keys) :
    (icbRates ls d (s.entries d) = (s.entries d).filterMap (fun icb =>
        match ls d icb.org_id with
        | none => none
        | some sz =>
          if 0 < sz then
            some { org_name := icb.org_name, rate := (icb.items : ℚ) / (sz : ℚ) }
          else none)) ∧
    (icbRates ls d (s.entries d) = [] →
      ∀ p ∈ find_top_prescriber_by_month_weighted s ls, p.1 ≠ d) ∧
    (icbRates ls d (s.entries d) ≠ [] →
      ∃ r pre post, icbRates ls d (s.entries d) = pre ++ r :: post ∧
        (∀ y ∈ icbRates ls d (s.entries d), y.rate ≤ r.rate) ∧
        (∀ y ∈ pre, y.rate < r.rate) ∧
        (d, r.org_name) ∈ find_top_prescriber_by_month_weighted s ls ∧
        (∀ p ∈ find_top_prescriber_by_month_weighted s ls, p.1 = d →
          p = (d, r.org_name))) := by
  refine ⟨?_, ?_, ?_⟩
  · unfold icbRates
    congr 1
    funext icb
    rcases h : ls d icb.org_id with _ | sz
    · simp [h]
    · simp [h]
  · intro h0 p hp hp1
    have h2 := filterMap_keyed_eq (weightedPick s ls) (pysorted s.keys)
      (fun a' p' => weightedPick_fst s ls a' p') p hp
    rw [hp1] at h2
    unfold weightedPick at h2
    rw [h0] at h2
    exact absurd h2 (by simp [pymax])
  · intro hne
    obtain ⟨x, xs, hxx⟩ : ∃ x xs, icbRates ls d (s.entries d) = x :: xs := by
      rcases hE : icbRates ls d (s.entries d) with _ | ⟨x, xs⟩
      · exact absurd hE hne
      · exact ⟨x, xs, rfl⟩
    obtain ⟨a, pre, post, ha, hdec, hmax, hpre⟩ := pymax_spec (fun y => y.rate) x xs
    have hfd : weightedPick s ls d = some (d, a.org_name) := by
      unfold weightedPick
      rw [hxx, ha]
    have hdmem : d ∈ pysorted s.keys := by
      unfold pysorted
      exact (List.mem_insertionSort (fun a b : String => a ≤ b)).mpr hd
    refine ⟨a, pre, post, by rw [hxx]; exact hdec, by rw [hxx]; exact hmax, hpre, ?_, ?_⟩
    · exact List.mem_filterMap.mpr ⟨d, hdmem, hfd⟩
    · intro p hp hp1
      have h2 := filterMap_keyed_eq (weightedPick s ls) (pysorted s.keys)
        (fun a' p' => weightedPick_fst s ls a' p') p hp
      rw [hp1, hfd] at h2
      exact (Option.some.inj h2).symm

/-- Concrete instance of C2: a date whose only entry has population 0 is
excluded from the weighted output even though it is present unweighted. -/
theorem find_top_prescriber_weighted_rate_selection_witness :
    (∀ p ∈ find_top_prescriber_by_month_weighted c2Spending c2Pop,
      p.1 ≠ "2023-02-01") ∧
    find_top_prescriber_by_month_weighted c2Spending c2Pop = [] ∧
    find_top_prescriber_by_month c2Spending = [("2023-02-01", some "ICB A")] := by
  refine ⟨?_, by decide, by decide⟩
  exact (find_top_prescriber_weighted_rate_selection c2Spending c2Pop "2023-02-01"
    (by decide)).2.1 (by decide)

/-- Claim C9: in both ranking modes the output's date sequence is strictly
increasing in the lexicographic string order (Mathlib's `String` order, which
compares the code-point lists lexicographically, as the last conjunct records)
and every output date is a key of the spending mapping. -/
theorem ranking_output_dates_sorted_subset (s : SpendingByDate) (ls : PopMap)
    (hnd : s.keys.Nodup) :
    (List.Sorted (fun a b : String => a < b)
        ((find_top_prescriber_by_month s).map Prod.fst) ∧
      ∀ d ∈ (find_top_prescriber_by_month s).map Prod.fst, d ∈ s.keys) ∧
    (List.Sorted (fun a b : String => a < b)
        ((find_top_prescriber_by_month_weighted s ls).map Prod.fst) ∧
      ∀ d ∈ (find_top_prescriber_by_month_weighted s ls).map Prod.fst, d ∈ s.keys) ∧
    (∀ a b : String, a < b ↔ a.toList < b.toList) := by
  have hperm := List.perm_insertionSort (fun a b : String => a ≤ b) s.keys
  have hs : List.Sorted (fun a b : String => a ≤ b) (pysorted s.keys) :=
    List.sorted_insertionSort _ _
  have hnd' : (pysorted s.keys).Nodup := hperm.nodup_iff.mpr hnd
  have hlt : List.Sorted (fun a b : String => a < b) (pysorted s.keys) :=
    hs.lt_of_le hnd'
  have hsub1 := fst_filterMap_sublist (unweightedPick s) (pysorted s.keys)
    (fun a' p' => unweightedPick_fst s a' p')
  have hsub2 := fst_filterMap_sublist (weightedPick s ls) (pysorted s.keys)
    (fun a' p' => weightedPick_fst s ls a' p')
  refine ⟨⟨List.Pairwise.sublist hsub1 hlt, ?_⟩,
          ⟨List.Pairwise.sublist hsub2 hlt, ?_⟩,
          fun a b => String.lt_iff_toList_lt⟩
  · intro d hdm
    exact hperm.mem_iff.mp (hsub1.subset hdm)
  · intro d hdm
    exact hperm.mem_iff.mp (hsub2.subset hdm)

/-- Concrete instance of C9 at a one-key mapping. -/
theorem ranking_output_dates_sorted_subset_witness :
    List.Sorted (fun a b : String => a < b)
      ((find_top_prescriber_by_month c9Spending).map Prod.fst) ∧
    ∀ d ∈ (find_top_prescriber_by_month c9Spending).map Prod.fst,
      d ∈ c9Spending.keys :=
  (ranking_output_dates_sorted_subset c9Spending (fun _ _ => none) (by decide)).1

/-- Claim C10: every date of the weighted ranking's output also appears in the
unweighted ranking's output computed from the same spending mapping: the
weighted mode only ever drops dates, it never adds one. -/
theorem weighted_dates_subset_unweighted (s : SpendingByDate) (ls : PopMap)
    (d : String)
    (hd : d ∈ (find_top_prescriber_by_month_weighted s ls).map Prod.fst) :
    d ∈ (find_top_prescriber_by_month s).map Prod.fst := by
  rcases List.mem_map.mp hd with ⟨p, hp, hp1⟩
  have hkey : d ∈ pysorted s.keys := by
    rcases List.mem_filterMap.mp hp with ⟨a, ha, hfa⟩
    have had : a = d := (weightedPick_fst s ls a p hfa).symm.trans hp1
    rw [← had]
    exact ha
  have h2 := filterMap_keyed_eq (weightedPick s ls) (pysorted s.keys)
    (fun a' p' => weightedPick_fst s ls a' p') p hp
  rw [hp1] at h2
  have hne : s.entries d ≠ [] := by
    intro h0
    unfold weightedPick at h2
    rw [h0] at h2
    rw [show icbRates ls d [] = [] from rfl] at h2
    exact absurd h2 (by simp [pymax])
  obtain ⟨x, xs, hxx⟩ : ∃ x xs, s.entries d = x :: xs := by
    rcases hE : s.entries d with _ | ⟨x, xs⟩
    · exact absurd hE hne
    · exact ⟨x, xs, rfl⟩
  obtain ⟨a, _, _, ha, _, _, _⟩ := pymax_spec (fun y => y.items) x xs
  have hfd : unweightedPick s d = some (d, a.org_name) := by
    unfold unweightedPick
    rw [hxx, ha]
  exact List.mem_map.mpr
    ⟨(d, a.org_name), List.mem_filterMap.mpr ⟨d, hkey, hfd⟩, rfl⟩

/-- Concrete instance of C10: a date present in the weighted output is present
in the unweighted output. -/
theorem weighted_dates_subset_unweighted_witness :
    "2023-04-01" ∈ (find_top_prescriber_by_month c10Spending).map Prod.fst :=
  weighted_dates_subset_unweighted c10Spending c10Pop "2023-04-01" (by decide)

/-- For a 7-character month string, `date.startswith(year_month)` holds
exactly when `date[:7]` equals it. -/
theorem pystartswith_eq_slice (d ym : String) (h7 : ym.toList.length = 7) :
    (pystartswith d ym = true) ↔ ym = pyslice d 7 := by
  unfold pystartswith pyslice
  rw [List.isPrefixOf_iff_prefix, List.prefix_iff_eq_take, h7]
  constructor
  · intro h
    apply String.toList_inj.mp
    rw [h]
    rfl
  · intro h
    have := congrArg String.toList h
    simpa using this

theorem mem_uniqueMonthsFrom (m : String) :
    ∀ (dates acc : List String),
    m ∈ uniqueMonthsFrom dates acc ↔ m ∈ acc ∨ ∃ d ∈ dates, pyslice d 7 = m := by
  intro dates
  induction dates with
  | nil => intro acc; simp [uniqueMonthsFrom]
  | cons d0 rest ih =>
    intro acc
    rw [show uniqueMonthsFrom (d0 :: rest) acc
          = uniqueMonthsFrom rest (insertOnce acc (pyslice d0 7)) from rfl, ih]
    rw [mem_insertOnce]
    constructor
    · rintro ((h | h) | ⟨d, hd, hdm⟩)
      · exact Or.inl h
      · exact Or.inr ⟨d0, List.mem_cons_self d0 rest, h.symm⟩
      · exact Or.inr ⟨d, List.mem_cons_of_mem d0 hd, hdm⟩
    · rintro (h | ⟨d, hd, hdm⟩)
      · exact Or.inl (Or.inl h)
      · rcases List.mem_cons.mp hd with rfl | hd'
        · exact Or.inl (Or.inr hdm.symm)
        · exact Or.inr ⟨d, hd', hdm⟩

theorem insertOnce_nodup (ks : List String) (d : String) (h : ks.Nodup) :
    (insertOnce ks d).Nodup := by
  unfold insertOnce
  by_cases hm : d ∈ ks
  · rw [if_pos hm]; exact h
  · rw [if_neg hm]
    simp [List.nodup_append, h, hm]

theorem uniqueMonthsFrom_nodup :
    ∀ (dates acc : List String), acc.Nodup → (uniqueMonthsFrom dates acc).Nodup := by
  intro dates
  induction dates with
  | nil => intro acc h; exact h
  | cons d0 rest ih =>
    intro acc h
    exact ih (insertOnce acc (pyslice d0 7)) (insertOnce_nodup acc (pyslice d0 7) h)

theorem processMonths_queries (api : String → Except String (List OrgDetail))
    (org_ids : List (Option String)) (dates : List String) :
    ∀ (ms : List String) (acc : PopResult),
    (processMonths api org_ids dates ms acc).queries =
      acc.queries ++ ms.map (fun ym => ym ++ "-01") := by
  intro ms
  induction ms with
  | nil => intro acc; simp [processMonths]
  | cons ym rest ih =>
    intro acc
    rw [show processMonths api org_ids dates (ym :: rest) acc
          = processMonths api org_ids dates rest
              (processMonth api org_ids dates acc ym) from rfl, ih]
    unfold processMonth
    rcases api (ym ++ "-01") with e | data
    · simp
    · simp

theorem processMonths_warnings (api : String → Except String (List OrgDetail))
    (org_ids : List (Option String)) (dates : List String) :
    ∀ (ms : List String) (acc : PopResult),
    (processMonths api org_ids dates ms acc).warnings =
      acc.warnings ++ ms.filterMap (fun ym =>
        match api (ym ++ "-01") with
        | .ok _ => none
        | .error e =>
          some ("Warning: Failed to fetch list sizes for " ++ ym ++ ": " ++ e)) := by
  intro ms
  induction ms with
  | nil => intro acc; simp [processMonths]
  | cons ym rest ih =>
    intro acc
    rw [show processMonths api org_ids dates (ym :: rest) acc
          = processMonths api org_ids dates rest
              (processMonth api org_ids dates acc ym) from rfl, ih]
    rw [List.filterMap_cons]
    unfold processMonth
    rcases api (ym ++ "-01") with e | data
    · simp
    · simp

theorem processMonths_stdout (api : String → Except String (List OrgDetail))
    (org_ids : List (Option String)) (dates : List String) :
    ∀ (ms : List String) (acc : PopResult),
    (processMonths api org_ids dates ms acc).stdout_lines = acc.stdout_lines := by
  intro ms
  induction ms with
  | nil => intro acc; rfl
  | cons ym rest ih =>
    intro acc
    rw [show processMonths api org_ids dates (ym :: rest) acc
          = processMonths api org_ids dates rest
              (processMonth api org_ids dates acc ym) from rfl, ih]
    unfold processMonth
    rcases api (ym ++ "-01") with e | data
    · rfl
    · rfl

theorem monthValFrom_eq (org_ids : List (Option String)) (o : Option String) :
    ∀ (data : List OrgDetail) (acc : Option Int),
    monthValFrom org_ids o data acc =
      match monthVal org_ids o data with
      | some v => some v
      | none => acc := by
  intro data
  induction data with
  | nil => intro acc; rfl
  | cons item rest ih =>
    intro acc
    rw [show monthValFrom org_ids o (item :: rest) acc
          = monthValFrom org_ids o rest
              (if item.row_id ∈ org_ids ∧ item.row_id = o then
                some (item.total_list_size.getD 0)
              else acc) from rfl, ih]
    rw [show monthVal org_ids o (item :: rest)
          = monthValFrom org_ids o rest
              (if item.row_id ∈ org_ids ∧ item.row_id = o then
                some (item.total_list_size.getD 0)
              else none) from rfl, ih]
    rcases monthVal org_ids o rest with _ | v
    · by_cases hc : item.row_id ∈ org_ids ∧ item.row_id = o
      · obtain ⟨h1, h2⟩ := hc
        subst h2
        simp [h1]
      · simp [hc]
    · rfl

theorem updDates_apply (ym : String) (o : Option String) (v : Int) :
    ∀ (dates : List String) (m : PopMap) (d' : String) (o' : Option String),
    updDates ym o v dates m d' o' =
      if d' ∈ dates ∧ pystartswith d' ym = true ∧ o' = o then some v
      else m d' o' := by
  intro dates
  induction dates with
  | nil => intro m d' o'; simp [updDates]
  | cons date0 ds ih =>
    intro m d' o'
    rw [show updDates ym o v (date0 :: ds) m
          = updDates ym o v ds
              (if pystartswith date0 ym = true then
                fun d'' o'' => if d'' = date0 ∧ o'' = o then some v else m d'' o''
              else m) from rfl, ih]
    by_cases hds : d' ∈ ds ∧ pystartswith d' ym = true ∧ o' = o
    · rw [if_pos hds, if_pos ⟨List.mem_cons_of_mem _ hds.1, hds.2⟩]
    · rw [if_neg hds]
      by_cases hs0 : pystartswith date0 ym = true
      · rw [if_pos hs0]
        by_cases hc : d' = date0 ∧ o' = o
        · have hall : d' ∈ date0 :: ds ∧ pystartswith d' ym = true ∧ o' = o :=
            ⟨by rw [hc.1]; exact List.mem_cons_self date0 ds,
             by rw [hc.1]; exact hs0, hc.2⟩
          rw [if_pos hc, if_pos hall]
        · have hnall : ¬(d' ∈ date0 :: ds ∧ pystartswith d' ym = true ∧ o' = o) := by
            rintro ⟨hmem, hst, ho⟩
            rcases List.mem_cons.mp hmem with rfl | hmem'
            · exact hc ⟨rfl, ho⟩
            · exact hds ⟨hmem', hst, ho⟩
          rw [if_neg hc, if_neg hnall]
      · rw [if_neg hs0]
        have hnall : ¬(d' ∈ date0 :: ds ∧ pystartswith d' ym = true ∧ o' = o) := by
          rintro ⟨hmem, hst, ho⟩
          rcases List.mem_cons.mp hmem with rfl | hmem'
          · exact hs0 hst
          · exact hds ⟨hmem', hst, ho⟩
        rw [if_neg hnall]

theorem updItems_apply (org_ids : List (Option String)) (dates : List String)
    (ym : String) :
    ∀ (data : List OrgDetail) (m : PopMap) (d : String) (o : Option String),
    updItems org_ids dates ym data m d o =
      if d ∈ dates ∧ pystartswith d ym = true then
        (match monthVal org_ids o data with
         | some v => some v
         | none => m d o)
      else m d o := by
  intro data
  induction data with
  | nil =>
    intro m d o
    by_cases hc : d ∈ dates ∧ pystartswith d ym = true
    · rw [show updItems org_ids dates ym [] m = m from rfl, if_pos hc]
      rfl
    · rw [show updItems org_ids dates ym [] m = m from rfl, if_neg hc]
  | cons item rest ih =>
    intro m d o
    rw [show updItems org_ids dates ym (item :: rest) m
          = updItems org_ids dates ym rest
              (if item.row_id ∈ org_ids then
                updDates ym item.row_id (item.total_list_size.getD 0) dates m
              else m) from rfl, ih]
    rw [show monthVal org_ids o (item :: rest)
          = monthValFrom org_ids o rest
              (if item.row_id ∈ org_ids ∧ item.row_id = o then
                some (item.total_list_size.getD 0)
              else none) from rfl, monthValFrom_eq]
    have hstep : (if item.row_id ∈ org_ids then
        updDates ym item.row_id (item.total_list_size.getD 0) dates m
      else m) d o =
        if d ∈ dates ∧ pystartswith d ym = true then
          (if item.row_id ∈ org_ids ∧ item.row_id = o then
            some (item.total_list_size.getD 0)
          else m d o)
        else m d o := by
      by_cases hrow : item.row_id ∈ org_ids
      · rw [if_pos hrow, updDates_apply]
        by_cases hc : d ∈ dates ∧ pystartswith d ym = true
        · rw [if_pos hc]
          by_cases ho : o = item.row_id
          · rw [if_pos ⟨hc.1, hc.2, ho⟩, if_pos ⟨hrow, ho.symm⟩]
          · rw [if_neg (fun w => ho w.2.2), if_neg (fun w => ho w.2.symm)]
        · rw [if_neg (fun w => hc ⟨w.1, w.2.1⟩), if_neg hc]
      · rw [if_neg hrow]
        have : ¬(item.row_id ∈ org_ids ∧ item.row_id = o) := fun w => hrow w.1
        rw [if_neg this]
        by_cases hc : d ∈ dates ∧ pystartswith d ym = true
        · rw [if_pos hc]
        · rw [if_neg hc]
    rw [hstep]
    by_cases hc : d ∈ dates ∧ pystartswith d ym = true
    · simp only [if_pos hc]
      rcases monthVal org_ids o rest with _ | v
      · by_cases hm : item.row_id ∈ org_ids ∧ item.row_id = o
        · obtain ⟨h1, h2⟩ := hm
          subst h2
          simp [h1]
        · simp [hm]
      · rfl
    · simp only [if_neg hc]

theorem processMonth_sizes_apply (api : String → Except String (List OrgDetail))
    (org_ids : List (Option String)) (dates : List String) (acc : PopResult)
    (ym : String) (d : String) (o : Option String)
    (hu : (pystartswith d ym = true) ↔ ym = pyslice d 7) :
    (processMonth api org_ids dates acc ym).sizes d o =
      if d ∈ dates ∧ ym = pyslice d 7 then
        (match targetVal api org_ids d o with
         | some v => some v
         | none => acc.sizes d o)
      else acc.sizes d o := by
  unfold processMonth targetVal
  rcases hapi : api (ym ++ "-01") with e | data
  · by_cases hc : d ∈ dates ∧ ym = pyslice d 7
    · rw [if_pos hc, ← hc.2, hapi]
    · rw [if_neg hc]
  · by_cases hc : d ∈ dates ∧ ym = pyslice d 7
    · have hst : d ∈ dates ∧ pystartswith d ym = true := ⟨hc.1, hu.mpr hc.2⟩
      rw [if_pos hc, ← hc.2, hapi]
      show updItems org_ids dates ym data acc.sizes d o = _
      rw [updItems_apply, if_pos hst]
    · have hst : ¬(d ∈ dates ∧ pystartswith d ym = true) :=
        fun w => hc ⟨w.1, hu.mp w.2⟩
      rw [if_neg hc]
      show updItems org_ids dates ym data acc.sizes d o = _
      rw [updItems_apply, if_neg hst]

theorem processMonths_sizes (api : String → Except String (List OrgDetail))
    (org_ids : List (Option String)) (dates : List String)
    (d : String) (o : Option String) :
    ∀ (ms : List String),
    (∀ ym ∈ ms, (pystartswith d ym = true) ↔ ym = pyslice d 7) →
    ∀ (acc : PopResult),
    (processMonths api org_ids dates ms acc).sizes d o =
      if d ∈ dates ∧ pyslice d 7 ∈ ms then
        (match targetVal api org_ids d o with
         | some v => some v
         | none => acc.sizes d o)
      else acc.sizes d o := by
  intro ms
  induction ms with
  | nil =>
    intro _ acc
    have : ¬(d ∈ dates ∧ pyslice d 7 ∈ ([] : List String)) := by simp
    rw [if_neg this]
    rfl
  | cons ym rest ih =>
    intro hu acc
    have hu0 := hu ym (List.mem_cons_self ym rest)
    rw [show processMonths api org_ids dates (ym :: rest) acc
          = processMonths api org_ids dates rest
              (processMonth api org_ids dates acc ym) from rfl,
        ih (fun m hm => hu m (List.mem_cons_of_mem ym hm)) _,
        processMonth_sizes_apply api org_ids dates acc ym d o hu0]
    rcases ht : targetVal api org_ids d o with _ | v
    · split_ifs <;> rfl
    · by_cases hd1 : d ∈ dates
      · by_cases h2 : pyslice d 7 ∈ rest
        · rw [if_pos (show d ∈ dates ∧ pyslice d 7 ∈ rest from ⟨hd1, h2⟩)]
          rw [if_pos (show d ∈ dates ∧ pyslice d 7 ∈ ym :: rest from
            ⟨hd1, List.mem_cons_of_mem ym h2⟩)]
        · by_cases hym : ym = pyslice d 7
          · rw [if_neg (show ¬(d ∈ dates ∧ pyslice d 7 ∈ rest) from fun w => h2 w.2)]
            rw [if_pos (show d ∈ dates ∧ ym = pyslice d 7 from ⟨hd1, hym⟩)]
            rw [if_pos (show d ∈ dates ∧ pyslice d 7 ∈ ym :: rest from
              ⟨hd1, by rw [← hym]; exact List.mem_cons_self ym rest⟩)]
          · have hC3 : ¬(d ∈ dates ∧ pyslice d 7 ∈ ym :: rest) := by
              rintro ⟨_, hmem⟩
              rcases List.mem_cons.mp hmem with hq | hq
              · exact hym hq.symm
              · exact h2 hq
            rw [if_neg (show ¬(d ∈ dates ∧ pyslice d 7 ∈ rest) from fun w => h2 w.2)]
            rw [if_neg (show ¬(d ∈ dates ∧ ym = pyslice d 7) from fun w => hym w.2)]
            rw [if_neg hC3]
      · simp only
          [if_neg (show ¬(d ∈ dates ∧ pyslice d 7 ∈ rest) from fun w => hd1 w.1),
           if_neg (show ¬(d ∈ dates ∧ ym = pyslice d 7) from fun w => hd1 w.1),
           if_neg (show ¬(d ∈ dates ∧ pyslice d 7 ∈ ym :: rest) from fun w => hd1 w.1)]

theorem get_icb_list_sizes_sizes (api : String → Except String (List OrgDetail))
    (org_ids : List (Option String)) (dates : List String)
    (hl : ∀ d ∈ dates, 7 ≤ d.toList.length) (d : String) (o : Option String) :
    (get_icb_list_sizes api org_ids dates).sizes d o =
      if d ∈ dates then targetVal api org_ids d o else none := by
  have hmonths7 : ∀ ym ∈ uniqueMonths dates, ym.toList.length = 7 := by
    intro ym hym
    rcases (mem_uniqueMonthsFrom ym dates []).mp hym with h | ⟨d', hd', rfl⟩
    · simp at h
    · have h7 := hl d' hd'
      simp only [pyslice]
      rw [show (String.mk (d'.toList.take 7)).toList = d'.toList.take 7 from rfl]
      rw [List.length_take]
      omega
  have hu : ∀ ym ∈ uniqueMonths dates, (pystartswith d ym = true) ↔ ym = pyslice d 7 :=
    fun ym hym => pystartswith_eq_slice d ym (hmonths7 ym hym)
  unfold get_icb_list_sizes
  rw [processMonths_sizes api org_ids dates d o (uniqueMonths dates) hu _]
  by_cases hd1 : d ∈ dates
  · have hmem : pyslice d 7 ∈ uniqueMonths dates :=
      (mem_uniqueMonthsFrom (pyslice d 7) dates []).mpr (Or.inr ⟨d, hd1, rfl⟩)
    rw [if_pos ⟨hd1, hmem⟩, if_pos hd1]
    rcases targetVal api org_ids d o with _ | v
    · rfl
    · rfl
  · rw [if_neg (fun w => hd1 w.1), if_neg hd1]

/-- Claim C6: the population collector issues exactly one external query per
distinct year-month among the requested dates (the months queried are the
distinct `date[:7]` values, each queried once, at the first day of the month);
for every requested date the recorded value per organization is determined by
that date's own month's response (an organization is recorded only when its
`row_id` is among `org_ids`, via `targetVal`); hence two requested dates in
the same month are populated identically. -/
theorem get_icb_list_sizes_one_query_per_month
    (api : String → Except String (List OrgDetail))
    (org_ids : List (Option String)) (dates : List String)
    (hl : ∀ d ∈ dates, 7 ≤ d.toList.length) :
    ((get_icb_list_sizes api org_ids dates).queries =
        (uniqueMonths dates).map (fun ym => ym ++ "-01") ∧
      (uniqueMonths dates).Nodup ∧
      (∀ m, m ∈ uniqueMonths dates ↔ ∃ d ∈ dates, pyslice d 7 = m)) ∧
    (∀ d ∈ dates, ∀ o, (get_icb_list_sizes api org_ids dates).sizes d o =
        targetVal api org_ids d o) ∧
    (∀ d1 ∈ dates, ∀ d2 ∈ dates, pyslice d1 7 = pyslice d2 7 →
      (get_icb_list_sizes api org_ids dates).sizes d1 =
        (get_icb_list_sizes api org_ids dates).sizes d2) := by
  refine ⟨⟨?_, ?_, ?_⟩, ?_, ?_⟩
  · have h := processMonths_queries api org_ids dates (uniqueMonths dates)
      { sizes := fun _ _ => none, queries := [], warnings := [], stdout_lines := [] }
    simpa [get_icb_list_sizes] using h
  · exact uniqueMonthsFrom_nodup dates [] List.nodup_nil
  · intro m
    rw [show uniqueMonths dates = uniqueMonthsFrom dates [] from rfl,
        mem_uniqueMonthsFrom]
    simp
  · intro d hd o
    rw [get_icb_list_sizes_sizes api org_ids dates hl d o, if_pos hd]
  · intro d1 hd1 d2 hd2 h12
    funext o
    rw [get_icb_list_sizes_sizes api org_ids dates hl d1 o, if_pos hd1,
        get_icb_list_sizes_sizes api org_ids dates hl d2 o, if_pos hd2]
    unfold targetVal
    rw [h12]

/-- Concrete instance of C6: two dates in the same month yield a single query
and identical population entries. -/
theorem get_icb_list_sizes_one_query_per_month_witness :
    (get_icb_list_sizes c6Api [some "A"] ["2023-05-15", "2023-05-20"]).queries =
      ["2023-05-01"] ∧
    (get_icb_list_sizes c6Api [some "A"] ["2023-05-15", "2023-05-20"]).sizes
        "2023-05-15" =
      (get_icb_list_sizes c6Api [some "A"] ["2023-05-15", "2023-05-20"]).sizes
        "2023-05-20" ∧
    (get_icb_list_sizes c6Api [some "A"] ["2023-05-15", "2023-05-20"]).sizes
        "2023-05-15" (some "A") = some 42 := by
  have h := get_icb_list_sizes_one_query_per_month c6Api [some "A"]
    ["2023-05-15", "2023-05-20"] (by decide)
  refine ⟨?_, ?_, by decide⟩
  · rw [h.1.1]
    decide
  · exact h.2.2 "2023-05-15" (by decide) "2023-05-20" (by decide) (by decide)

/-- Claim C7: a failed monthly population query is never fatal: the loop emits
exactly the warning line for that month on the diagnostic stream (standard
output stays empty), every requested date of that month is left absent from
the mapping (not recorded as zero), and the dates of every other month are
still processed normally. -/
theorem get_icb_list_sizes_month_failure
    (api : String → Except String (List OrgDetail))
    (org_ids : List (Option String)) (dates : List String)
    (hl : ∀ d ∈ dates, 7 ≤ d.toList.length)
    (m e : String) (hm : m ∈ uniqueMonths dates)
    (he : api (m ++ "-01") = .error e) :
    ("Warning: Failed to fetch list sizes for " ++ m ++ ": " ++ e) ∈
        (get_icb_list_sizes api org_ids dates).warnings ∧
    (get_icb_list_sizes api org_ids dates).stdout_lines = [] ∧
    (∀ d ∈ dates, pyslice d 7 = m →
      ∀ o, (get_icb_list_sizes api org_ids dates).sizes d o = none) ∧
    (∀ d ∈ dates, ∀ o, (get_icb_list_sizes api org_ids dates).sizes d o =
        targetVal api org_ids d o) := by
  refine ⟨?_, ?_, ?_, ?_⟩
  · have h := processMonths_warnings api org_ids dates (uniqueMonths dates)
      { sizes := fun _ _ => none, queries := [], warnings := [], stdout_lines := [] }
    rw [show get_icb_list_sizes api org_ids dates
          = processMonths api org_ids dates (uniqueMonths dates)
              { sizes := fun _ _ => none, queries := [], warnings := [],
                stdout_lines := [] } from rfl, h]
    refine List.mem_append_right _ (List.mem_filterMap.mpr ⟨m, hm, ?_⟩)
    rw [he]
  · have h := processMonths_stdout api org_ids dates (uniqueMonths dates)
      { sizes := fun _ _ => none, queries := [], warnings := [], stdout_lines := [] }
    exact h
  · intro d hd hslice o
    rw [get_icb_list_sizes_sizes api org_ids dates hl d o, if_pos hd]
    unfold targetVal
    rw [hslice, he]
  · intro d hd o
    rw [get_icb_list_sizes_sizes api org_ids dates hl d o, if_pos hd]

/-- Concrete instance of C7: the failed June query leaves the June date absent
(not zero) while the July date is still populated, and the warning line is
emitted on the diagnostic stream only. -/
theorem get_icb_list_sizes_month_failure_witness :
    ("Warning: Failed to fetch list sizes for 2023-06: boom") ∈
      (get_icb_list_sizes c7Api [some "A"] ["2023-06-15", "2023-07-20"]).warnings ∧
    (get_icb_list_sizes c7Api [some "A"] ["2023-06-15", "2023-07-20"]).stdout_lines
      = [] ∧
    (get_icb_list_sizes c7Api [some "A"] ["2023-06-15", "2023-07-20"]).sizes
      "2023-06-15" (some "A") = none ∧
    (get_icb_list_sizes c7Api [some "A"] ["2023-06-15", "2023-07-20"]).sizes
      "2023-07-20" (some "A") = some 5 := by
  have h := get_icb_list_sizes_month_failure c7Api [some "A"]
    ["2023-06-15", "2023-07-20"] (by decide) "2023-06" "boom" (by decide) (by rfl)
  refine ⟨?_, h.2.1, ?_, ?_⟩
  · have hw := h.1
    simpa using hw
  · exact h.2.2.1 "2023-06-15" (by decide) (by decide) (some "A")
  · exact (h.2.2.2 "2023-07-20" (by decide) (some "A")).trans (by decide)
